import Mathlib

/-!
Verification development for the AI code editor front end.

The single stateful component of the repository is the `App` component in
`src/App.tsx`.  All of its event handlers are synchronous state updates
(the two asynchronous collaborator calls are modelled by passing the
completed outcome of the call as an explicit argument, so one invocation of
a handler covers the whole request/response round trip).  We embed the
component state as the structure `AppState` and every handler as a pure
function `AppState → AppState`, then prove the specified properties.
-/

namespace AICodeEditor

/-- One line of a file under review, from `src/types.ts` (interface
`Correction`). -/
structure Correction where
  lineNumber : Nat
  original : String
  corrected : String
  isError : Bool
  explanation : String
deriving Repr, DecidableEq

/-- The `useState` fields of the `App` component in `src/App.tsx`,
lines 33-55.  `dividerPosition` is a JS number used only through exact
arithmetic here, modelled as `Rat`. -/
structure AppState where
  htmlCode : String
  cssCode : String
  htmlDiff : Option (List Correction)
  cssDiff : Option (List Correction)
  isLoading : Bool
  error : Option String
  logs : List String
  isLogPanelExpanded : Bool
  isPreviewPanelExpanded : Bool
  isPreviewFullScreen : Bool
  isPreviewPinned : Bool
  chatQuery : String
  chatResponse : String
  isChatResponseVisible : Bool
  isChatLoading : Bool
  dividerPosition : Rat
  isDragging : Bool
  isHtmlFocused : Bool
  isCssFocused : Bool
deriving Repr, DecidableEq

/-- `initialHtml` constant from `src/App.tsx` lines 10-12. -/
def initialHtml : String :=
  "<h1>Welcome to the Live Editor!</h1>\n<p>Change the HTML or CSS to see updates.</p>\n<button class=\"btn\">Click Me</button>"

/-- `initialCss` constant from `src/App.tsx` lines 13-30 (braces escaped). -/
def initialCss : String :=
  "body \x7b\n  font-family: sans-serif;\n  padding: 2em;\n  color: #333;\n\x7d\n\n.btn \x7b\n  background-color: #0284c7; /* A sky blue color */\n  color: white;\n  border: none;\n  padding: 10px 20px;\n  border-radius: 5px;\n  cursor: pointer;\n\x7d\n\n.btn:hover \x7b\n  background-color: #0369a1; /* A slightly darker sky blue */\n\x7d"

/-- The initial values passed to `useState` in `src/App.tsx` lines 33-55. -/
def initialState : AppState where
  htmlCode := initialHtml
  cssCode := initialCss
  htmlDiff := none
  cssDiff := none
  isLoading := false
  error := none
  logs := []
  isLogPanelExpanded := false
  isPreviewPanelExpanded := false
  isPreviewFullScreen := false
  isPreviewPinned := false
  chatQuery := ""
  chatResponse := ""
  isChatResponseVisible := false
  isChatLoading := false
  dividerPosition := 50
  isDragging := false
  isHtmlFocused := false
  isCssFocused := false

/-- Executable model of the JS `String.prototype.trim` used by the guards
in `src/App.tsx` lines 63 and 103: removes leading and trailing whitespace
characters.  (Written by structural recursion over the character list so
the kernel can evaluate it; `String.trim` of the core library is defined by
well-founded recursion and does not reduce.) -/
def jsTrim (s : String) : String :=
  String.mk (((s.data.dropWhile Char.isWhitespace).reverse.dropWhile Char.isWhitespace).reverse)

/-- `addLog` from `src/App.tsx` lines 57-60: prepends a timestamped entry
to the log list (newest first).  The timestamp produced by
`new Date().toLocaleTimeString()` is passed in as `ts`. -/
def addLog (ts : String) (message : String) (s : AppState) : AppState :=
  { s with logs := ("[" ++ ts ++ "] " ++ message) :: s.logs }

/-- Completed outcome of the `correctCode` collaborator call awaited in
`src/App.tsx` line 76.  Each of the two arrays of the response may be
missing (JS `undefined`/`null` are falsy; a present array, even empty, is
truthy), hence `Option`.  A thrown value is either an `Error` instance
carrying a message or some other value. -/
inductive CorrectOutcome where
  | success (htmlCorrections : Option (List Correction)) (cssCorrections : Option (List Correction))
  | errorThrown (message : String)
  | nonErrorThrown
deriving Repr

/-- Completed outcome of the `getChatResponse` collaborator call awaited in
`src/App.tsx` line 112. -/
inductive ChatOutcome where
  | success (response : String)
  | errorThrown (message : String)
  | nonErrorThrown
deriving Repr

/-- `handleCorrectCode` from `src/App.tsx` lines 62-99, one whole
invocation including the awaited collaborator outcome.  `ts n` is the
timestamp of the n-th `addLog` call of this invocation. -/
def handleCorrectCode (ts : Nat → String) (outcome : CorrectOutcome) (s : AppState) : AppState :=
  if jsTrim s.htmlCode = "" ∧ jsTrim s.cssCode = "" then
    let msg := "Please enter some HTML or CSS code to correct."
    addLog (ts 0) ("Validation Error: " ++ msg) { s with error := some msg }
  else
    let s1 := addLog (ts 0) "Correction process started..." s
    let s2 := { s1 with isLoading := true, error := none,
                        htmlDiff := (none : Option (List Correction)),
                        cssDiff := (none : Option (List Correction)) }
    let s3 :=
      match outcome with
      | .success (some h) (some c) =>
          addLog (ts 1) "Correction successful. Diff generated."
            { s2 with htmlDiff := some h, cssDiff := some c }
      | .success _ _ =>
          let msg := "No corrections found or unexpected API response."
          addLog (ts 1) ("API Warning: " ++ msg) { s2 with error := some msg }
      | .errorThrown m =>
          addLog (ts 1) ("API Error: " ++ m) { s2 with error := some m }
      | .nonErrorThrown =>
          let msg := "An unknown error occurred."
          addLog (ts 1) ("Error: " ++ msg) { s2 with error := some msg }
    addLog (ts 2) "Correction process finished." { s3 with isLoading := false }

/-- `handleChatSubmit` from `src/App.tsx` lines 101-123, one whole
invocation including the awaited collaborator outcome. -/
def handleChatSubmit (ts : Nat → String) (outcome : ChatOutcome) (s : AppState) : AppState :=
  if jsTrim s.chatQuery = "" ∨ s.isChatLoading then s
  else
    let s1 := addLog (ts 0) ("Chat query submitted: \"" ++ s.chatQuery ++ "\"") s
    let s2 := { s1 with isChatLoading := true, chatResponse := "",
                        isChatResponseVisible := true, error := none }
    let s3 :=
      match outcome with
      | .success resp =>
          addLog (ts 1) "Chat response received." { s2 with chatResponse := resp }
      | .errorThrown m =>
          addLog (ts 1) ("Chat Error: " ++ m) { s2 with chatResponse := "**Error:** " ++ m }
      | .nonErrorThrown =>
          let m := "An unknown chat error occurred."
          addLog (ts 1) ("Chat Error: " ++ m) { s2 with chatResponse := "**Error:** " ++ m }
    { s3 with isChatLoading := false, chatQuery := "" }

/-- `handleAcceptCorrection` from `src/App.tsx` lines 125-137. -/
def handleAcceptCorrection (ts : String) (s : AppState) : AppState :=
  let s1 :=
    match s.htmlDiff with
    | some diff => { s with htmlCode := String.intercalate "\n" (diff.map Correction.corrected) }
    | none => s
  let s2 :=
    match s.cssDiff with
    | some diff => { s1 with cssCode := String.intercalate "\n" (diff.map Correction.corrected) }
    | none => s1
  addLog ts "Corrections accepted by user."
    { s2 with htmlDiff := (none : Option (List Correction)),
              cssDiff := (none : Option (List Correction)) }

/-- `handleEditAgain` from `src/App.tsx` lines 139-143. -/
def handleEditAgain (ts : String) (s : AppState) : AppState :=
  addLog ts "User returned to edit mode."
    { s with htmlDiff := (none : Option (List Correction)),
             cssDiff := (none : Option (List Correction)) }

/-- `handleMouseDown` from `src/App.tsx` lines 145-148. -/
def handleMouseDown (s : AppState) : AppState :=
  { s with isDragging := true }

/-- `handleMouseUp` from `src/App.tsx` lines 150-152. -/
def handleMouseUp (s : AppState) : AppState :=
  { s with isDragging := false }

/-- `handleMouseMove` from `src/App.tsx` lines 154-163.  `containerPresent`
models whether `editorContainerRef.current` is non-null; `clientX`,
`rectLeft` and `rectWidth` are the pointer x coordinate and the bounding
rectangle of the editor container. -/
def handleMouseMove (containerPresent : Bool) (clientX rectLeft rectWidth : Rat) (s : AppState) : AppState :=
  if ¬s.isDragging ∨ ¬containerPresent then s
  else
    let newX := clientX - rectLeft
    let newPosition := newX / rectWidth * 100
    { s with dividerPosition := max 15 (min 85 newPosition) }

/-- `handleTogglePreviewFullScreen` from `src/App.tsx` lines 165-172: when
exiting full screen it also collapses the hover expansion. -/
def handleTogglePreviewFullScreen (s : AppState) : AppState :=
  let s1 := if s.isPreviewFullScreen then { s with isPreviewPanelExpanded := false } else s
  { s1 with isPreviewFullScreen := ¬s.isPreviewFullScreen }

/-- `handleTogglePinPreview` from `src/App.tsx` lines 174-179: when
unpinning it also collapses the hover expansion. -/
def handleTogglePinPreview (s : AppState) : AppState :=
  let s1 := if s.isPreviewPinned then { s with isPreviewPanelExpanded := false } else s
  { s1 with isPreviewPinned := ¬s.isPreviewPinned }

/-- The preview panel `onMouseEnter` handler from `src/App.tsx` line 221:
it is attached only while the panel is neither pinned nor fullscreen. -/
def previewHoverEnter (s : AppState) : AppState :=
  if ¬s.isPreviewPinned ∧ ¬s.isPreviewFullScreen then
    { s with isPreviewPanelExpanded := true }
  else s

/-- The preview panel `onMouseLeave` handler from `src/App.tsx` line 222. -/
def previewHoverLeave (s : AppState) : AppState :=
  if ¬s.isPreviewPinned ∧ ¬s.isPreviewFullScreen then
    { s with isPreviewPanelExpanded := false }
  else s

/-- The log panel `onMouseEnter` handler from `src/App.tsx` line 321. -/
def logHoverEnter (s : AppState) : AppState :=
  { s with isLogPanelExpanded := true }

/-- The log panel `onMouseLeave` handler from `src/App.tsx` line 322. -/
def logHoverLeave (s : AppState) : AppState :=
  { s with isLogPanelExpanded := false }

/-- Direct user edit of the HTML buffer via `onCodeChange={setHtmlCode}`
(`src/App.tsx` line 271). -/
def userEditHtml (code : String) (s : AppState) : AppState :=
  { s with htmlCode := code }

/-- Direct user edit of the CSS buffer via `onCodeChange={setCssCode}`
(`src/App.tsx` line 289). -/
def userEditCss (code : String) (s : AppState) : AppState :=
  { s with cssCode := code }

/-- Typing in the chat bar via `onQueryChange={setChatQuery}`
(`src/App.tsx` line 351). -/
def userSetChatQuery (q : String) (s : AppState) : AppState :=
  { s with chatQuery := q }

/-- Closing the chat response popup via `onClose` (`src/App.tsx`
line 345). -/
def closeChatPopup (s : AppState) : AppState :=
  { s with isChatResponseVisible := false }

/-- Focus and blur handlers for the two editors (`src/App.tsx`
lines 275-276 and 293-294), combined into one parameterised update. -/
def setFocus (html : Bool) (value : Bool) (s : AppState) : AppState :=
  if html then { s with isHtmlFocused := value } else { s with isCssFocused := value }

/-- The disabled predicate of the correct button in `src/App.tsx`
line 207: `isLoading || !!(htmlDiff && cssDiff)` (a present array is
truthy, even when empty). -/
def correctButtonDisabled (s : AppState) : Bool :=
  s.isLoading || (s.htmlDiff.isSome && s.cssDiff.isSome)

/-- Every user or network-completion event the `App` component reacts to. -/
inductive Event where
  | correct (ts : Nat → String) (outcome : CorrectOutcome)
  | chat (ts : Nat → String) (outcome : ChatOutcome)
  | accept (ts : String)
  | editAgain (ts : String)
  | mouseDown
  | mouseUp
  | mouseMove (containerPresent : Bool) (clientX rectLeft rectWidth : Rat)
  | toggleFullscreen
  | togglePin
  | previewEnter
  | previewLeave
  | logEnter
  | logLeave
  | editHtml (code : String)
  | editCss (code : String)
  | setQuery (q : String)
  | closePopup
  | focus (html : Bool) (value : Bool)

/-- Dispatch of one event to its handler. -/
def step (e : Event) (s : AppState) : AppState :=
  match e with
  | .correct ts outcome => handleCorrectCode ts outcome s
  | .chat ts outcome => handleChatSubmit ts outcome s
  | .accept ts => handleAcceptCorrection ts s
  | .editAgain ts => handleEditAgain ts s
  | .mouseDown => handleMouseDown s
  | .mouseUp => handleMouseUp s
  | .mouseMove p x l w => handleMouseMove p x l w s
  | .toggleFullscreen => handleTogglePreviewFullScreen s
  | .togglePin => handleTogglePinPreview s
  | .previewEnter => previewHoverEnter s
  | .previewLeave => previewHoverLeave s
  | .logEnter => logHoverEnter s
  | .logLeave => logHoverLeave s
  | .editHtml c => userEditHtml c s
  | .editCss c => userEditCss c s
  | .setQuery q => userSetChatQuery q s
  | .closePopup => closeChatPopup s
  | .focus h v => setFocus h v s

/-- Running a sequence of events from a state, oldest event first. -/
def run (events : List Event) (s : AppState) : AppState :=
  events.foldl (fun acc e => step e acc) s

/-- Spec-side definition, for comparison with the source behaviour: the
newline join of the `corrected` fields of a correction sequence taken in
ascending `lineNumber` order, i.e. after sorting the sequence by
`lineNumber`. -/
def specAscendingJoin (cs : List Correction) : String :=
  String.intercalate "\n"
    ((List.insertionSort (fun a b => a.lineNumber ≤ b.lineNumber) cs).map Correction.corrected)

/-- A correction sequence whose records are not in ascending `lineNumber`
order; with the collaborator contract out of the picture nothing in
`handleAcceptCorrection` forbids this shape. -/
def unsortedHtmlDiff : List Correction :=
  [⟨2, "b", "b2", false, ""⟩, ⟨1, "a", "a1", false, ""⟩]

/-- A reviewing state holding the unsorted HTML correction sequence. -/
def unsortedDiffState : AppState :=
  { initialState with htmlDiff := some unsortedHtmlDiff, cssDiff := some [] }

/-- The single-line scenario correction from the spec: HTML line 1 with
`corrected` text capitalised. -/
def scenarioCorrection : Correction :=
  ⟨1, "<p>hi</p>", "<p>Hi</p>", true, "Capitalize"⟩

/-- The scenario reviewing state: one-line HTML input, empty CSS, one HTML
correction and an empty CSS correction array. -/
def scenarioState : AppState :=
  { initialState with
      htmlCode := "<p>hi</p>", cssCode := "",
      htmlDiff := some [scenarioCorrection], cssDiff := some [] }

/-- C1 counterexample: for the unsorted correction sequence, the HTML
buffer after `handleAcceptCorrection` is not the newline join of the
`corrected` fields in ascending `lineNumber` order, so the claim as stated
(quantified over every non-null pair of correction sequences) fails. -/
theorem c1_counterexample :
    (handleAcceptCorrection "00:00:00" unsortedDiffState).htmlCode ≠
      specAscendingJoin unsortedHtmlDiff := by
  decide

/-- C1 (amended): for every active (non-null) pair of correction
sequences, `handleAcceptCorrection` replaces the HTML and CSS buffers with
the newline join of the `corrected` fields in the order the sequences give
them, clears both sequences, and whenever a sequence is sorted in
ascending `lineNumber` order (as the collaborator contract guarantees)
that join coincides with the ascending-`lineNumber`-order join. -/
theorem c1_accept_joins_corrected (s : AppState) (ts : String)
    (h : List Correction) (c : List Correction)
    (hh : s.htmlDiff = some h) (hc : s.cssDiff = some c) :
    (handleAcceptCorrection ts s).htmlCode =
      String.intercalate "\n" (h.map Correction.corrected) ∧
    (handleAcceptCorrection ts s).cssCode =
      String.intercalate "\n" (c.map Correction.corrected) ∧
    (handleAcceptCorrection ts s).htmlDiff = none ∧
    (handleAcceptCorrection ts s).cssDiff = none ∧
    (List.Sorted (fun a b => a.lineNumber ≤ b.lineNumber) h →
      (handleAcceptCorrection ts s).htmlCode = specAscendingJoin h) ∧
    (List.Sorted (fun a b => a.lineNumber ≤ b.lineNumber) c →
      (handleAcceptCorrection ts s).cssCode = specAscendingJoin c) := by
  simp only [handleAcceptCorrection, hh, hc, addLog, specAscendingJoin]
  refine ⟨trivial, trivial, trivial, trivial, fun hs => ?_, fun hs => ?_⟩
  · rw [hs.insertionSort_eq]
  · rw [hs.insertionSort_eq]

/-- C1 witness: the spec scenario.  Accepting the scenario corrections
turns the HTML buffer into the corrected line and the CSS buffer into the
empty string. -/
theorem c1_witness :
    (handleAcceptCorrection "00:00:00" scenarioState).htmlCode = "<p>Hi</p>" ∧
    (handleAcceptCorrection "00:00:00" scenarioState).cssCode = "" := by
  have h := c1_accept_joins_corrected scenarioState "00:00:00"
    [scenarioCorrection] [] rfl rfl
  exact ⟨by rw [h.1]; rfl, by rw [h.2.1]; rfl⟩

/-- The user-visible message of the validation guard in
`src/App.tsx` line 64. -/
def validationMsg : String := "Please enter some HTML or CSS code to correct."

/-- C2: when both code buffers trim to the empty string, a correction
request sets the validation error message, prepends exactly one validation
log entry, and changes nothing else; the result does not depend on the
collaborator outcome, so the collaborator is never consulted. -/
theorem c2_validation_guard (ts : Nat → String) (outcome : CorrectOutcome) (s : AppState)
    (hHtml : jsTrim s.htmlCode = "") (hCss : jsTrim s.cssCode = "") :
    handleCorrectCode ts outcome s =
      { s with error := some validationMsg,
               logs := ("[" ++ ts 0 ++ "] " ++ ("Validation Error: " ++ validationMsg)) :: s.logs } := by
  simp only [handleCorrectCode, addLog, validationMsg, if_pos (And.intro hHtml hCss)]

/-- A state whose two code buffers are whitespace-only. -/
def blankBuffersState : AppState :=
  { initialState with htmlCode := "  ", cssCode := "" }

/-- C2 witness: the guard fires on the whitespace-only state. -/
theorem c2_witness :
    handleCorrectCode (fun _ => "12:00:00") CorrectOutcome.nonErrorThrown blankBuffersState =
      { blankBuffersState with
          error := some validationMsg,
          logs := ("[" ++ "12:00:00" ++ "] " ++ ("Validation Error: " ++ validationMsg)) :: blankBuffersState.logs } :=
  c2_validation_guard (fun _ => "12:00:00") CorrectOutcome.nonErrorThrown blankBuffersState
    (by decide) (by decide)

/-- A whole `handleCorrectCode` invocation never touches either code
buffer, whatever the outcome. -/
theorem handleCorrectCode_preserves_buffers (ts : Nat → String) (outcome : CorrectOutcome) (s : AppState) :
    (handleCorrectCode ts outcome s).htmlCode = s.htmlCode ∧
    (handleCorrectCode ts outcome s).cssCode = s.cssCode := by
  simp only [handleCorrectCode, addLog]
  split
  · exact ⟨rfl, rfl⟩
  · cases outcome with
    | success ho co => cases ho <;> cases co <;> exact ⟨rfl, rfl⟩
    | errorThrown m => exact ⟨rfl, rfl⟩
    | nonErrorThrown => exact ⟨rfl, rfl⟩

/-- C5: a correction request (with any outcome) followed by
`handleEditAgain` leaves both code buffers byte-identical to their
pre-request values and clears both correction sequences. -/
theorem c5_edit_again_frame (ts1 : Nat → String) (outcome : CorrectOutcome) (ts2 : String) (s : AppState) :
    (handleEditAgain ts2 (handleCorrectCode ts1 outcome s)).htmlCode = s.htmlCode ∧
    (handleEditAgain ts2 (handleCorrectCode ts1 outcome s)).cssCode = s.cssCode ∧
    (handleEditAgain ts2 (handleCorrectCode ts1 outcome s)).htmlDiff = none ∧
    (handleEditAgain ts2 (handleCorrectCode ts1 outcome s)).cssDiff = none := by
  have hp := handleCorrectCode_preserves_buffers ts1 outcome s
  exact ⟨hp.1, hp.2, rfl, rfl⟩

/-- C7: unpinning the preview panel, and exiting preview fullscreen, both
leave the hover expansion flag false immediately after the call, whatever
it was before. -/
theorem c7_hover_collapses (s : AppState) :
    (s.isPreviewPinned = true → (handleTogglePinPreview s).isPreviewPanelExpanded = false) ∧
    (s.isPreviewFullScreen = true → (handleTogglePreviewFullScreen s).isPreviewPanelExpanded = false) := by
  constructor <;> intro hp <;>
    simp [handleTogglePinPreview, handleTogglePreviewFullScreen, hp]

/-- A pinned, fullscreen, hover-expanded preview state. -/
def pinnedFullscreenState : AppState :=
  { initialState with isPreviewPinned := true, isPreviewFullScreen := true,
                      isPreviewPanelExpanded := true }

/-- C7 witness: both toggles collapse the hover expansion on the pinned
fullscreen expanded state. -/
theorem c7_witness :
    (handleTogglePinPreview pinnedFullscreenState).isPreviewPanelExpanded = false ∧
    (handleTogglePreviewFullScreen pinnedFullscreenState).isPreviewPanelExpanded = false :=
  ⟨(c7_hover_collapses pinnedFullscreenState).1 rfl,
   (c7_hover_collapses pinnedFullscreenState).2 rfl⟩

/-- C8: submitting a chat query while a request is pending, or with an
empty or whitespace-only query, leaves the whole state unchanged (in
particular the logs, the stored response, the popup visibility and the
chat loading flag). -/
theorem c8_chat_guard_noop (ts : Nat → String) (outcome : ChatOutcome) (s : AppState)
    (hguard : jsTrim s.chatQuery = "" ∨ s.isChatLoading = true) :
    handleChatSubmit ts outcome s = s := by
  simp only [handleChatSubmit]
  exact if_pos hguard

/-- A state with a chat request pending and a non-blank query. -/
def chatPendingState : AppState :=
  { initialState with chatQuery := "why is it red", isChatLoading := true }

/-- C8 witness: re-submitting while pending changes nothing. -/
theorem c8_witness :
    handleChatSubmit (fun _ => "12:00:00") (ChatOutcome.success "answer") chatPendingState =
      chatPendingState :=
  c8_chat_guard_noop (fun _ => "12:00:00") (ChatOutcome.success "answer") chatPendingState
    (Or.inr rfl)

/-- C10: the correct button is enabled exactly when no request is loading
and the correction sequences are not both present; in particular in a
reviewing state (both sequences present) it is disabled. -/
theorem c10_correct_trigger (s : AppState) :
    (correctButtonDisabled s = false ↔
      s.isLoading = false ∧ ¬(s.htmlDiff.isSome = true ∧ s.cssDiff.isSome = true)) ∧
    (∀ h c, s.htmlDiff = some h → s.cssDiff = some c → correctButtonDisabled s = true) := by
  constructor
  · simp only [correctButtonDisabled, Bool.or_eq_false_iff, Bool.and_eq_false_iff]
    constructor
    · rintro ⟨h1, h2⟩
      refine ⟨h1, ?_⟩
      rintro ⟨hh, hc⟩
      rcases h2 with h | h
      · rw [hh] at h; cases h
      · rw [hc] at h; cases h
    · rintro ⟨h1, h2⟩
      refine ⟨h1, ?_⟩
      by_cases hh : s.htmlDiff.isSome = true
      · by_cases hc : s.cssDiff.isSome = true
        · exact absurd ⟨hh, hc⟩ h2
        · exact Or.inr (Bool.eq_false_iff.mpr hc)
      · exact Or.inl (Bool.eq_false_iff.mpr hh)
  · intro h c hh hc
    simp [correctButtonDisabled, hh, hc]

/-- C10 witness: in the scenario reviewing state the button is disabled. -/
theorem c10_witness : correctButtonDisabled scenarioState = true :=
  (c10_correct_trigger scenarioState).2 [scenarioCorrection] [] rfl rfl

/-- A state carrying a visible correction error, a non-blank chat query
and no pending chat request. -/
def staleErrorState : AppState :=
  { initialState with error := some "previous correction error",
                      chatQuery := "what does this do" }

/-- C4 counterexample: submitting a chat query clears the user-visible
error message (`setError(null)` in `src/App.tsx` line 109), so the claim
that the error message is unchanged fails. -/
theorem c4_counterexample :
    (handleChatSubmit (fun _ => "10:00:00") (ChatOutcome.success "answer") staleErrorState).error ≠
      staleErrorState.error := by
  decide

/-- C4 (amended): submitting a chat query leaves both code buffers, both
correction sequences and the correction loading flag unchanged, but when
it proceeds past its guard it clears the user-visible error message (the
error banner is shared mutable state between the two workflows). -/
theorem c4_chat_frame (ts : Nat → String) (outcome : ChatOutcome) (s : AppState) :
    (handleChatSubmit ts outcome s).htmlCode = s.htmlCode ∧
    (handleChatSubmit ts outcome s).cssCode = s.cssCode ∧
    (handleChatSubmit ts outcome s).htmlDiff = s.htmlDiff ∧
    (handleChatSubmit ts outcome s).cssDiff = s.cssDiff ∧
    (handleChatSubmit ts outcome s).isLoading = s.isLoading ∧
    (¬(jsTrim s.chatQuery = "" ∨ s.isChatLoading = true) →
      (handleChatSubmit ts outcome s).error = none) := by
  simp only [handleChatSubmit]
  split
  · rename_i hg
    exact ⟨rfl, rfl, rfl, rfl, rfl, fun hneg => absurd hg hneg⟩
  · cases outcome <;> exact ⟨rfl, rfl, rfl, rfl, rfl, fun _ => rfl⟩

/-- C4 witness: on the stale-error state, a chat submission keeps the HTML
buffer and clears the error banner. -/
theorem c4_witness :
    ((handleChatSubmit (fun _ => "10:00:00") (ChatOutcome.success "answer") staleErrorState).htmlCode =
      staleErrorState.htmlCode) ∧
    ((handleChatSubmit (fun _ => "10:00:00") (ChatOutcome.success "answer") staleErrorState).error = none) := by
  have h := c4_chat_frame (fun _ => "10:00:00") (ChatOutcome.success "answer") staleErrorState
  exact ⟨h.1, h.2.2.2.2.2 (by decide)⟩

/-- C6: once the validation guard is passed, every completed correction
request ends with the loading flag false, whatever the outcome; and on a
collaborator failure that threw an `Error`, its message is surfaced
verbatim, an API-error log entry is appended, no correction sequences are
stored, and the correct trigger is enabled again. -/
theorem c6_requesting_resolves (ts : Nat → String) (outcome : CorrectOutcome) (s : AppState)
    (hguard : ¬(jsTrim s.htmlCode = "" ∧ jsTrim s.cssCode = "")) :
    ((handleCorrectCode ts outcome s).isLoading = false) ∧
    (∀ m, outcome = CorrectOutcome.errorThrown m →
      (handleCorrectCode ts outcome s).error = some m ∧
      (handleCorrectCode ts outcome s).htmlDiff = none ∧
      (handleCorrectCode ts outcome s).cssDiff = none ∧
      (handleCorrectCode ts outcome s).logs =
        ("[" ++ ts 2 ++ "] " ++ "Correction process finished.") ::
          ("[" ++ ts 1 ++ "] " ++ ("API Error: " ++ m)) ::
            ("[" ++ ts 0 ++ "] " ++ "Correction process started...") :: s.logs ∧
      correctButtonDisabled (handleCorrectCode ts outcome s) = false) := by
  constructor
  · simp only [handleCorrectCode, addLog, if_neg hguard]
  · rintro m rfl
    simp [handleCorrectCode, addLog, if_neg hguard, correctButtonDisabled]

/-- A state with a non-blank HTML buffer, about to issue a failing
request. -/
def failingRequestState : AppState :=
  { initialState with htmlCode := "<p>x</p>", cssCode := "" }

/-- C6 witness: a failed request on the non-blank state ends not loading
with the thrown message surfaced. -/
theorem c6_witness :
    ((handleCorrectCode (fun _ => "09:00:00") (CorrectOutcome.errorThrown "Network failure")
        failingRequestState).isLoading = false) ∧
    ((handleCorrectCode (fun _ => "09:00:00") (CorrectOutcome.errorThrown "Network failure")
        failingRequestState).error = some "Network failure") := by
  have h := c6_requesting_resolves (fun _ => "09:00:00")
    (CorrectOutcome.errorThrown "Network failure") failingRequestState (by decide)
  exact ⟨h.1, (h.2 "Network failure" rfl).1⟩

/-- One step keeps `dividerPosition` within the clamp bounds: only
`handleMouseMove` writes it, and it writes a clamped value. -/
theorem divider_bounds_step (e : Event) (s : AppState)
    (h15 : 15 ≤ s.dividerPosition) (h85 : s.dividerPosition ≤ 85) :
    15 ≤ (step e s).dividerPosition ∧ (step e s).dividerPosition ≤ 85 := by
  cases e with
  | correct ts o =>
      have hd : (handleCorrectCode ts o s).dividerPosition = s.dividerPosition := by
        simp only [handleCorrectCode, addLog]
        split
        · rfl
        · cases o with
          | success ho co => cases ho <;> cases co <;> rfl
          | errorThrown m => rfl
          | nonErrorThrown => rfl
      simp only [step, hd]; exact ⟨h15, h85⟩
  | chat ts o =>
      have hd : (handleChatSubmit ts o s).dividerPosition = s.dividerPosition := by
        simp only [handleChatSubmit]
        split
        · rfl
        · cases o <;> rfl
      simp only [step, hd]; exact ⟨h15, h85⟩
  | accept ts =>
      have hd : (handleAcceptCorrection ts s).dividerPosition = s.dividerPosition := by
        simp only [handleAcceptCorrection, addLog]
        cases hh : s.htmlDiff <;> cases hc : s.cssDiff <;> simp only [hh, hc]
      simp only [step, hd]; exact ⟨h15, h85⟩
  | editAgain ts => exact ⟨h15, h85⟩
  | mouseDown => exact ⟨h15, h85⟩
  | mouseUp => exact ⟨h15, h85⟩
  | mouseMove p x l w =>
      simp only [step, handleMouseMove]
      split
      · exact ⟨h15, h85⟩
      · exact ⟨le_max_left _ _, max_le (by norm_num) (min_le_left _ _)⟩
  | toggleFullscreen =>
      simp only [step, handleTogglePreviewFullScreen]
      split <;> exact ⟨h15, h85⟩
  | togglePin =>
      simp only [step, handleTogglePinPreview]
      split <;> exact ⟨h15, h85⟩
  | previewEnter =>
      simp only [step, previewHoverEnter]
      split <;> exact ⟨h15, h85⟩
  | previewLeave =>
      simp only [step, previewHoverLeave]
      split <;> exact ⟨h15, h85⟩
  | logEnter => exact ⟨h15, h85⟩
  | logLeave => exact ⟨h15, h85⟩
  | editHtml c => exact ⟨h15, h85⟩
  | editCss c => exact ⟨h15, h85⟩
  | setQuery q => exact ⟨h15, h85⟩
  | closePopup => exact ⟨h15, h85⟩
  | focus hv v =>
      simp only [step, setFocus]
      split <;> exact ⟨h15, h85⟩

/-- Running any event sequence keeps `dividerPosition` within the clamp
bounds. -/
theorem divider_bounds_run (events : List Event) (s : AppState)
    (h15 : 15 ≤ s.dividerPosition) (h85 : s.dividerPosition ≤ 85) :
    15 ≤ (run events s).dividerPosition ∧ (run events s).dividerPosition ≤ 85 := by
  induction events generalizing s with
  | nil => exact ⟨h15, h85⟩
  | cons e es ih =>
      have hs := divider_bounds_step e s h15 h85
      exact ih (step e s) hs.1 hs.2

/-- C3: over every event sequence from the initial state the divider
position stays in [15, 85]; in particular dragging from x = 0 to x = 1000
over a 1000-wide container ends at 85, not 100. -/
theorem c3_divider_always_clamped :
    (∀ events : List Event,
      15 ≤ (run events initialState).dividerPosition ∧
      (run events initialState).dividerPosition ≤ 85) ∧
    (run [Event.mouseDown, Event.mouseMove true 0 0 1000,
          Event.mouseMove true 1000 0 1000] initialState).dividerPosition = 85 := by
  constructor
  · intro events
    exact divider_bounds_run events initialState (by norm_num [initialState]) (by norm_num [initialState])
  · simp only [run, List.foldl_cons, List.foldl_nil, step, handleMouseDown, handleMouseMove]
    norm_num

/-- Both correction sequences present, or both absent. -/
def diffsAligned (s : AppState) : Prop :=
  s.htmlDiff = none ↔ s.cssDiff = none

/-- One step preserves the alignment of the two correction sequences. -/
theorem diffsAligned_step (e : Event) (s : AppState) (h : diffsAligned s) :
    diffsAligned (step e s) := by
  cases e with
  | correct ts o =>
      simp only [step, handleCorrectCode, addLog, diffsAligned]
      split
      · exact h
      · cases o with
        | success ho co => cases ho <;> cases co <;> simp
        | errorThrown m => simp
        | nonErrorThrown => simp
  | chat ts o =>
      have hd : (handleChatSubmit ts o s).htmlDiff = s.htmlDiff ∧
          (handleChatSubmit ts o s).cssDiff = s.cssDiff := by
        simp only [handleChatSubmit]
        split
        · exact ⟨rfl, rfl⟩
        · cases o <;> exact ⟨rfl, rfl⟩
      simp only [step, diffsAligned, hd.1, hd.2]; exact h
  | accept ts => exact Iff.rfl
  | editAgain ts => exact Iff.rfl
  | mouseDown => exact h
  | mouseUp => exact h
  | mouseMove p x l w =>
      simp only [step, handleMouseMove]
      split <;> exact h
  | toggleFullscreen =>
      simp only [step, handleTogglePreviewFullScreen]
      split <;> exact h
  | togglePin =>
      simp only [step, handleTogglePinPreview]
      split <;> exact h
  | previewEnter =>
      simp only [step, previewHoverEnter]
      split <;> exact h
  | previewLeave =>
      simp only [step, previewHoverLeave]
      split <;> exact h
  | logEnter => exact h
  | logLeave => exact h
  | editHtml c => exact h
  | editCss c => exact h
  | setQuery q => exact h
  | closePopup => exact h
  | focus hv v =>
      simp only [step, setFocus]
      split <;> exact h

/-- Running any event sequence preserves the alignment of the two
correction sequences. -/
theorem diffsAligned_run (events : List Event) (s : AppState) (h : diffsAligned s) :
    diffsAligned (run events s) := by
  induction events generalizing s with
  | nil => exact h
  | cons e es ih => exact ih (step e s) (diffsAligned_step e s h)

/-- C9: in every state reachable from the initial state by any event
sequence, the HTML correction sequence is absent exactly when the CSS
correction sequence is absent. -/
theorem c9_diffs_never_partial (events : List Event) :
    ((run events initialState).htmlDiff = none ↔ (run events initialState).cssDiff = none) :=
  diffsAligned_run events initialState ⟨fun _ => rfl, fun _ => rfl⟩

end AICodeEditor
